import Mathlib

/-!
Verification of the line-oriented punctuation/grammar-correction filter
(src/punctuator.py) against its design specification.

The program reads lines from standard input.  For each line it strips
surrounding whitespace; a blank line is echoed as an empty output line.
A non-blank line is encoded to token ids without truncation; if the id
sequence is longer than the model's maximum length it is cut to the first
MAX_TOKENS ids and decoded back to a shorter string (skipping special
tokens).  The output length budget is max_length = max(word_count * 2, 5)
and min_length = 1, where word_count counts the whitespace-separated words
of the (possibly truncated) text.  The generator is then called once with
do_sample = False and truncation = True, and the first candidate's text is
printed with flush=True.  The blank-line branch prints without flush=True.

The tokenizer and the generation pipeline are external collaborators, so
they are modelled as abstract structures; the per-line control flow of the
script is embedded faithfully, recording every collaborator call and every
write (with its flush flag) as an event trace.  Fallible collaborator calls
return Except values and errors propagate, mirroring uncaught Python
exceptions; a generator result with zero candidates surfaces as the
IndexError that `out[0]` would raise.
-/

namespace Punctuator

/-- Decidable equality for Except values, for evaluating the model on
closed inputs. -/
instance exceptDecEq {ε α : Type} [DecidableEq ε] [DecidableEq α] :
    DecidableEq (Except ε α)
  | .error a, .error b =>
    if h : a = b then isTrue (by rw [h])
    else isFalse (fun hh => h (by cases hh; rfl))
  | .error _, .ok _ => isFalse (fun hh => by cases hh)
  | .ok _, .error _ => isFalse (fun hh => by cases hh)
  | .ok a, .ok b =>
    if h : a = b then isTrue (by rw [h])
    else isFalse (fun hh => h (by cases hh; rfl))

/-- Python str.strip() with no argument: remove leading and trailing
whitespace characters. -/
def pyStrip (s : String) : String :=
  String.mk (((s.data.dropWhile Char.isWhitespace).reverse.dropWhile
    Char.isWhitespace).reverse)

/-- Helper for pySplit: accumulate the current word (reversed) while
scanning the characters. -/
def splitWsAux : List Char → List Char → List (List Char)
  | [], acc => if acc.isEmpty then [] else [acc.reverse]
  | c :: cs, acc =>
    if c.isWhitespace then
      if acc.isEmpty then splitWsAux cs [] else acc.reverse :: splitWsAux cs []
    else splitWsAux cs (c :: acc)

/-- Python str.split() with no separator: split on runs of whitespace and
drop empty pieces. -/
def pySplit (s : String) : List String :=
  (splitWsAux s.data []).map String.mk

/-- Abstract tokenizer collaborator (AutoTokenizer): encode without
truncation (fallible, like any Python call), decode a list of ids back to
a string given the skip_special_tokens flag, and the fixed
model_max_length capacity (MAX_TOKENS in the script). -/
structure Tokenizer where
  encode : String → Except String (List Nat)
  decode : List Nat → Bool → String
  model_max_length : Nat

/-- Arguments of one generation call, mirroring the keyword arguments of
the pipeline invocation in the script. -/
structure GenParams where
  text : String
  max_length : Nat
  min_length : Nat
  do_sample : Bool
  truncation : Bool
deriving DecidableEq, Repr

/-- Abstract text2text-generation pipeline: returns the list of candidate
generated texts, or an error (an uncaught exception). -/
structure Generator where
  run : GenParams → Except String (List String)

/-- Observable events of one run: collaborator calls and writes to
standard output.  A write records whether flush=True was passed. -/
inductive Event where
  | encodeCall (s : String)
  | decodeCall (ids : List Nat) (skipSpecial : Bool)
  | generateCall (p : GenParams)
  | write (s : String) (flush : Bool)
deriving DecidableEq, Repr

/-- Recognizer for generation-call events. -/
def Event.isGen : Event → Bool
  | .generateCall _ => true
  | _ => false

/-- Recognizer for decode-call events. -/
def Event.isDecode : Event → Bool
  | .decodeCall _ _ => true
  | _ => false

/-- Recognizer for write events. -/
def Event.isWrite : Event → Bool
  | .write _ _ => true
  | _ => false

/-- EffectiveText of the script for a stripped line with id sequence ids:
the line itself if the ids fit in model_max_length, otherwise the decoding
(with skip_special_tokens=True) of the first model_max_length ids. -/
def effText (tok : Tokenizer) (text : String) (ids : List Nat) : String :=
  if ids.length > tok.model_max_length then
    tok.decode (ids.take tok.model_max_length) true
  else text

/-- Length budget of the script: max(word_count * 2, 5). -/
def budgetMax (text : String) : Nat :=
  Nat.max ((pySplit text).length * 2) 5

/-- The decode-call events of one line: one decode call exactly when the
ids exceed model_max_length. -/
def truncEvents (tok : Tokenizer) (ids : List Nat) : List Event :=
  if ids.length > tok.model_max_length then
    [Event.decodeCall (ids.take tok.model_max_length) true]
  else []

/-- The full argument record handed to the generation pipeline for a
stripped line whose encoding is ids: EffectiveText, the derived budget,
min_length=1, do_sample=False, truncation=True. -/
def genParamsFor (tok : Tokenizer) (text : String) (ids : List Nat) : GenParams :=
  { text := effText tok text ids
    max_length := budgetMax (effText tok text ids)
    min_length := 1
    do_sample := false
    truncation := true }

/-- Processing of one raw input line (one iteration of the main loop of
the script, lines 19-43): strip; blank lines print an empty line without
flush=True; otherwise encode, truncate and decode if over capacity,
compute the budget, call the generator, and print the first candidate with
flush=True.  Returns the event trace and the printed line, or the
propagated error. -/
def process (tok : Tokenizer) (gen : Generator) (line : String) :
    List Event × Except String String :=
  let text := pyStrip line
  if text.isEmpty then
    ([Event.write "" false], .ok "")
  else
    match tok.encode text with
    | .error e => ([Event.encodeCall text], .error e)
    | .ok ids =>
      let p := genParamsFor tok text ids
      let evs := Event.encodeCall text :: (truncEvents tok ids ++ [Event.generateCall p])
      match gen.run p with
      | .error e => (evs, .error e)
      | .ok [] => (evs, .error "IndexError")
      | .ok (o :: _) => (evs ++ [Event.write o true], .ok o)

/-- The whole run over a finite input stream: process each line in order,
stopping at the first propagated error (no retry, no per-line isolation).
Returns the concatenated event trace and the list of output lines, or the
error that aborted the run. -/
def runLines (tok : Tokenizer) (gen : Generator) :
    List String → List Event × Except String (List String)
  | [] => ([], .ok [])
  | line :: rest =>
    match process tok gen line with
    | (evs, .error e) => (evs, .error e)
    | (evs, .ok o) =>
      match runLines tok gen rest with
      | (evs2, .error e) => (evs ++ evs2, .error e)
      | (evs2, .ok outs) => (evs ++ evs2, .ok (o :: outs))

/-- Concrete character-level tokenizer used to exercise the model on
closed inputs: encode maps each character to its code point, decode maps
code points back to characters, and the capacity is 3 tokens. -/
def charTok : Tokenizer where
  encode s := .ok (s.data.map Char.toNat)
  decode l _ := String.mk (l.map Char.ofNat)
  model_max_length := 3

/-- Concrete deterministic generator used on closed inputs: one candidate,
the input text with an exclamation mark appended. -/
def bangGen : Generator where
  run p := .ok [p.text ++ "!"]

/-- Concrete generator returning zero candidates, to exercise the
IndexError path. -/
def emptyGen : Generator where
  run _ := .ok []

/-! Helper lemmas characterizing one iteration of the loop. -/

/-- Blank branch of the loop: a line that strips to the empty string
produces exactly one write event, of the empty string without flush, and
the empty output. -/
theorem process_blank (tok : Tokenizer) (gen : Generator) (line : String)
    (h : (pyStrip line).isEmpty = true) :
    process tok gen line = ([Event.write "" false], .ok "") := by
  simp [process, h]

/-- Every event of truncEvents is the single decode call on the first
model_max_length ids. -/
theorem mem_truncEvents {tok : Tokenizer} {ids : List Nat} {e : Event}
    (h : e ∈ truncEvents tok ids) :
    e = Event.decodeCall (ids.take tok.model_max_length) true ∧
      tok.model_max_length < ids.length := by
  unfold truncEvents at h
  split at h <;> simp_all

/-- Membership of a generation-call event in the core event list of one
non-blank line pins down its argument record. -/
theorem genCall_core {tok : Tokenizer} {ids : List Nat} {t : String}
    {p p0 : GenParams}
    (h : Event.generateCall p ∈
      Event.encodeCall t :: (truncEvents tok ids ++ [Event.generateCall p0])) :
    p = p0 := by
  rcases List.mem_cons.mp h with h | h
  · exact absurd h (by simp)
  rcases List.mem_append.mp h with h | h
  · exact absurd (mem_truncEvents h).1 (by simp)
  · exact (Event.generateCall.injEq _ _).mp (List.mem_singleton.mp h)

/-- Every generation-call event in the trace of one line comes from a
non-blank stripped line and carries exactly the argument record
genParamsFor built from the encoding of the stripped line. -/
theorem genCall_mem {tok : Tokenizer} {gen : Generator} {line : String}
    {p : GenParams}
    (h : Event.generateCall p ∈ (process tok gen line).1) :
    (pyStrip line).isEmpty = false ∧
      ∃ ids, tok.encode (pyStrip line) = .ok ids ∧
        p = genParamsFor tok (pyStrip line) ids := by
  unfold process at h
  cases hb : (pyStrip line).isEmpty with
  | true => simp [hb] at h
  | false =>
    refine ⟨rfl, ?_⟩
    simp only [hb] at h
    cases henc : tok.encode (pyStrip line) with
    | error e => simp [henc] at h
    | ok ids =>
      refine ⟨ids, rfl, ?_⟩
      simp only [henc] at h
      cases hrun : gen.run (genParamsFor tok (pyStrip line) ids) with
      | error e =>
        simp only [hrun, Bool.false_eq_true, if_false] at h
        exact genCall_core h
      | ok outs =>
        cases outs with
        | nil =>
          simp only [hrun, Bool.false_eq_true, if_false] at h
          exact genCall_core h
        | cons o rest =>
          simp only [hrun, Bool.false_eq_true, if_false] at h
          rcases List.mem_append.mp h with h | h
          · exact genCall_core h
          · exact absurd (List.mem_singleton.mp h) (by simp)

/-- A write event never occurs in the core event list (encode, optional
decode, generate) of one non-blank line. -/
theorem write_core {tok : Tokenizer} {ids : List Nat} {t : String}
    {p0 : GenParams} {s : String} {f : Bool}
    (h : Event.write s f ∈
      Event.encodeCall t :: (truncEvents tok ids ++ [Event.generateCall p0])) :
    False := by
  rcases List.mem_cons.mp h with h | h
  · exact absurd h (by simp)
  rcases List.mem_append.mp h with h | h
  · exact absurd (mem_truncEvents h).1 (by simp)
  · exact absurd (List.mem_singleton.mp h) (by simp)

/-- On every non-blank line whose encoding succeeds, the generation call
with the derived argument record is present in the trace. -/
theorem genCall_present (tok : Tokenizer) (gen : Generator) (line : String)
    (ids : List Nat)
    (htrim : (pyStrip line).isEmpty = false)
    (henc : tok.encode (pyStrip line) = .ok ids) :
    Event.generateCall (genParamsFor tok (pyStrip line) ids) ∈
      (process tok gen line).1 := by
  unfold process
  simp only [htrim, Bool.false_eq_true, if_false, henc]
  cases hrun : gen.run (genParamsFor tok (pyStrip line) ids) with
  | error e => simp
  | ok outs => cases outs with
    | nil => simp
    | cons o rest => simp

/-- Successful processing of a non-blank line is exactly: encoding
succeeded, the generator returned a non-empty candidate list whose head is
the output, and the trace ends with the flushed write of that head. -/
theorem process_success {tok : Tokenizer} {gen : Generator} {line : String}
    {out : String}
    (htrim : (pyStrip line).isEmpty = false)
    (hok : (process tok gen line).2 = .ok out) :
    ∃ ids rest, tok.encode (pyStrip line) = .ok ids ∧
      gen.run (genParamsFor tok (pyStrip line) ids) = .ok (out :: rest) ∧
      process tok gen line =
        (Event.encodeCall (pyStrip line) ::
          (truncEvents tok ids ++
            [Event.generateCall (genParamsFor tok (pyStrip line) ids)]) ++
          [Event.write out true], .ok out) := by
  unfold process at hok ⊢
  simp only [htrim, Bool.false_eq_true, if_false] at hok ⊢
  cases henc : tok.encode (pyStrip line) with
  | error e => simp [henc] at hok
  | ok ids =>
    simp only [henc] at hok ⊢
    cases hrun : gen.run (genParamsFor tok (pyStrip line) ids) with
    | error e => simp [hrun] at hok
    | ok outs => cases outs with
      | nil => simp [hrun] at hok
      | cons o rest =>
        simp only [hrun] at hok ⊢
        cases hok
        exact ⟨ids, rest, rfl, hrun, by simp⟩

/-- Decode-call count in the truncation events: one exactly when the ids
exceed the capacity. -/
theorem countP_decode_truncEvents (tok : Tokenizer) (ids : List Nat) :
    (truncEvents tok ids).countP Event.isDecode =
      if ids.length > tok.model_max_length then 1 else 0 := by
  unfold truncEvents
  split <;> simp_all [Event.isDecode]

/-- No write event in the truncation events. -/
theorem countP_write_truncEvents (tok : Tokenizer) (ids : List Nat) :
    (truncEvents tok ids).countP Event.isWrite = 0 := by
  unfold truncEvents
  split <;> simp [Event.isWrite]

/-- Decode-call count over the whole trace of one non-blank line whose
encoding succeeds: one exactly when the ids exceed the capacity. -/
theorem countP_decode_process (tok : Tokenizer) (gen : Generator)
    (line : String) (ids : List Nat)
    (htrim : (pyStrip line).isEmpty = false)
    (henc : tok.encode (pyStrip line) = .ok ids) :
    (process tok gen line).1.countP Event.isDecode =
      if ids.length > tok.model_max_length then 1 else 0 := by
  unfold process
  simp only [htrim, Bool.false_eq_true, if_false, henc]
  cases hrun : gen.run (genParamsFor tok (pyStrip line) ids) with
  | error e =>
    simp [List.countP_cons, List.countP_append, Event.isDecode,
      countP_decode_truncEvents]
  | ok outs => cases outs with
    | nil =>
      simp [List.countP_cons, List.countP_append, Event.isDecode,
        countP_decode_truncEvents]
    | cons o rest =>
      simp [List.countP_cons, List.countP_append, Event.isDecode,
        countP_decode_truncEvents]

/-- Every decode-call event in the trace of one line decodes exactly the
first model_max_length ids of a successful over-capacity encoding, with
skip_special_tokens=True. -/
theorem decodeCall_mem {tok : Tokenizer} {gen : Generator} {line : String}
    {l : List Nat} {b : Bool}
    (h : Event.decodeCall l b ∈ (process tok gen line).1) :
    ∃ ids, tok.encode (pyStrip line) = .ok ids ∧
      tok.model_max_length < ids.length ∧
      l = ids.take tok.model_max_length ∧ b = true ∧
      l.length = tok.model_max_length := by
  have core : ∀ (ids : List Nat) (t : String) (p0 : GenParams),
      Event.decodeCall l b ∈
        Event.encodeCall t :: (truncEvents tok ids ++ [Event.generateCall p0]) →
      Event.decodeCall l b ∈ truncEvents tok ids := by
    intro ids t p0 hc
    rcases List.mem_cons.mp hc with hc | hc
    · exact absurd hc (by simp)
    rcases List.mem_append.mp hc with hc | hc
    · exact hc
    · exact absurd (List.mem_singleton.mp hc) (by simp)
  unfold process at h
  cases hb : (pyStrip line).isEmpty with
  | true => simp [hb] at h
  | false =>
    simp only [hb] at h
    cases henc : tok.encode (pyStrip line) with
    | error e => simp [henc] at h
    | ok ids =>
      simp only [henc] at h
      refine ⟨ids, rfl, ?_⟩
      have htr : Event.decodeCall l b ∈ truncEvents tok ids := by
        cases hrun : gen.run (genParamsFor tok (pyStrip line) ids) with
        | error e =>
          simp only [hrun, Bool.false_eq_true, if_false] at h
          exact core ids _ _ h
        | ok outs => cases outs with
          | nil =>
            simp only [hrun, Bool.false_eq_true, if_false] at h
            exact core ids _ _ h
          | cons o rest =>
            simp only [hrun, Bool.false_eq_true, if_false] at h
            rcases List.mem_append.mp h with h | h
            · exact core ids _ _ h
            · exact absurd (List.mem_singleton.mp h) (by simp)
      obtain ⟨heq, hlt⟩ := mem_truncEvents htr
      have h1 : l = ids.take tok.model_max_length := by
        injection heq with h1 h2
      have h2 : b = true := by
        injection heq with ha hb2
      refine ⟨hlt, h1, h2, ?_⟩
      rw [h1, List.length_take]
      exact Nat.min_eq_left (Nat.le_of_lt hlt)

/-- Every write event of one line carries flush=True exactly when the
stripped line is non-blank. -/
theorem write_flag {tok : Tokenizer} {gen : Generator} {line : String}
    {s : String} {f : Bool}
    (h : Event.write s f ∈ (process tok gen line).1) :
    f = !(pyStrip line).isEmpty := by
  unfold process at h
  cases hb : (pyStrip line).isEmpty with
  | true =>
    simp only [hb, if_true] at h
    have := List.mem_singleton.mp h
    injection this with h1 h2
  | false =>
    simp only [hb, Bool.false_eq_true, if_false] at h
    cases henc : tok.encode (pyStrip line) with
    | error e => simp [henc] at h
    | ok ids =>
      simp only [henc] at h
      cases hrun : gen.run (genParamsFor tok (pyStrip line) ids) with
      | error e =>
        simp only [hrun] at h
        exact absurd h write_core
      | ok outs => cases outs with
        | nil =>
          simp only [hrun] at h
          exact absurd h write_core
        | cons o rest =>
          simp only [hrun] at h
          rcases List.mem_append.mp h with h | h
          · exact absurd h write_core
          · have := List.mem_singleton.mp h
            injection this with h1 h2

/-- A successfully processed line produces exactly one write event. -/
theorem countP_write_success {tok : Tokenizer} {gen : Generator}
    {line : String} {out : String}
    (hok : (process tok gen line).2 = .ok out) :
    (process tok gen line).1.countP Event.isWrite = 1 := by
  cases hb : (pyStrip line).isEmpty with
  | true =>
    rw [process_blank tok gen line hb]
    simp [Event.isWrite]
  | false =>
    obtain ⟨ids, rest, henc, hrun, heq⟩ := process_success hb hok
    rw [heq]
    simp [List.countP_cons, List.countP_append, Event.isWrite,
      countP_write_truncEvents]

/-- No generation-call event in the truncation events. -/
theorem countP_gen_truncEvents (tok : Tokenizer) (ids : List Nat) :
    (truncEvents tok ids).countP Event.isGen = 0 := by
  unfold truncEvents
  split <;> simp [Event.isGen]

/-- Characterization of a successful whole run: as many outputs as input
lines, and the i-th output is the successful processing of the i-th
line. -/
theorem runLines_ok (tok : Tokenizer) (gen : Generator) (lines : List String) :
    ∀ outs : List String,
      (runLines tok gen lines).2 = .ok outs →
      outs.length = lines.length ∧
      ∀ (i : Nat) (hi : i < lines.length) (hi2 : i < outs.length),
        (process tok gen (lines.get ⟨i, hi⟩)).2 = .ok (outs.get ⟨i, hi2⟩) := by
  induction lines with
  | nil =>
    intro outs h
    simp only [runLines] at h
    cases h
    exact ⟨rfl, fun i hi hi2 => absurd hi (by simp at hi)⟩
  | cons line rest ih =>
    intro outs h
    simp only [runLines] at h
    rcases hp : process tok gen line with ⟨evs, r⟩
    rw [hp] at h
    cases r with
    | error e => simp at h
    | ok o =>
      rcases hr : runLines tok gen rest with ⟨evs2, r2⟩
      rw [hr] at h
      cases r2 with
      | error e => simp at h
      | ok outs2 =>
        simp only at h
        cases h
        have ihh := ih outs2 (by rw [hr])
        refine ⟨by simp [ihh.1], ?_⟩
        intro i hi hi2
        cases i with
        | zero => simp [hp]
        | succ n =>
          exact ihh.2 n (Nat.lt_of_succ_lt_succ hi) (Nat.lt_of_succ_lt_succ hi2)

/-- Unfolding equation of runLines on a non-empty stream. -/
theorem runLines_cons (tok : Tokenizer) (gen : Generator) (line : String)
    (rest : List String) :
    runLines tok gen (line :: rest) =
      match process tok gen line with
      | (evs, .error e) => (evs, .error e)
      | (evs, .ok o) =>
        match runLines tok gen rest with
        | (evs2, .error e) => (evs ++ evs2, .error e)
        | (evs2, .ok outs) => (evs ++ evs2, .ok (o :: outs)) := rfl

/-- A successful whole run performs exactly one write per input line. -/
theorem runLines_writes (tok : Tokenizer) (gen : Generator)
    (lines : List String) :
    ∀ outs : List String,
      (runLines tok gen lines).2 = .ok outs →
      (runLines tok gen lines).1.countP Event.isWrite = lines.length := by
  induction lines with
  | nil => intro outs h; simp [runLines]
  | cons line rest ih =>
    intro outs h
    simp only [runLines] at h ⊢
    rcases hp : process tok gen line with ⟨evs, r⟩
    rw [hp] at h
    cases r with
    | error e => simp at h
    | ok o =>
      rcases hr : runLines tok gen rest with ⟨evs2, r2⟩
      rw [hr] at h
      cases r2 with
      | error e => simp at h
      | ok outs2 =>
        have h1 : evs.countP Event.isWrite = 1 := by
          have h0 := @countP_write_success tok gen line o (by rw [hp])
          rwa [hp] at h0
        have h2 : evs2.countP Event.isWrite = rest.length := by
          have h0 := ih outs2 (by rw [hr])
          rwa [hr] at h0
        simp only [List.countP_append, h1, h2, List.length_cons]
        omega

/-- A failing line aborts the whole run: the error propagates, the lines
after it are never processed, and the trace is exactly the traces of the
earlier successful lines followed by the failing line's trace. -/
theorem runLines_abort (tok : Tokenizer) (gen : Generator) :
    ∀ (pre : List String) (line : String) (post : List String)
      (evs : List Event) (e : String),
      (∀ l ∈ pre, ∃ ev o, process tok gen l = (ev, Except.ok o)) →
      process tok gen line = (evs, .error e) →
      runLines tok gen (pre ++ line :: post) =
        ((pre.map fun l => (process tok gen l).1).flatten ++ evs, .error e) := by
  intro pre
  induction pre with
  | nil =>
    intro line post evs e hpre hline
    simp [runLines, hline]
  | cons l pre ih =>
    intro line post evs e hpre hline
    obtain ⟨ev, o, hl⟩ := hpre l (by simp)
    have ihh := ih line post evs e (fun x hx => hpre x (by simp [hx])) hline
    simp only [List.cons_append, runLines_cons, hl, ihh, List.map_cons,
      List.flatten, List.append_assoc]

/-! The claims. -/

/-- C1: for every non-empty stripped line whose encoding succeeds, the
generation call is made and its length budget satisfies
max_output_tokens = max(word_count * 2, 5) and min_output_tokens = 1,
where word_count is the number of whitespace-separated words of the
EffectiveText (the text field of the call); in particular
max_output_tokens is at least 5 always, and a single-word text yields
max_output_tokens = 5. -/
theorem c1_length_budget (tok : Tokenizer) (gen : Generator) (line : String)
    (ids : List Nat)
    (htrim : (pyStrip line).isEmpty = false)
    (henc : tok.encode (pyStrip line) = .ok ids) :
    Event.generateCall (genParamsFor tok (pyStrip line) ids) ∈
      (process tok gen line).1 ∧
    ∀ p : GenParams, Event.generateCall p ∈ (process tok gen line).1 →
      p.max_length = Nat.max ((pySplit p.text).length * 2) 5 ∧
      p.min_length = 1 ∧
      5 ≤ p.max_length ∧
      ((pySplit p.text).length = 1 → p.max_length = 5) := by
  refine ⟨genCall_present tok gen line ids htrim henc, ?_⟩
  intro p hp
  obtain ⟨-, ids2, -, rfl⟩ := genCall_mem hp
  refine ⟨rfl, rfl, Nat.le_max_right _ _, ?_⟩
  intro h1
  simp only [genParamsFor, budgetMax] at h1 ⊢
  rw [h1]
  decide

/-- C2: for every non-empty stripped line, the generation call's text is
the original stripped line verbatim when its token sequence fits within
model_max_length, and otherwise the decoding (with
skip_special_tokens=True) of the first model_max_length tokens; in the
latter case, provided decoding then re-encoding does not lengthen a token
sequence (the round-trip property of the external tokenizer), the token
count of the EffectiveText is at most model_max_length. -/
theorem c2_truncation_boundedness (tok : Tokenizer) (gen : Generator)
    (line : String) (ids : List Nat)
    (htrim : (pyStrip line).isEmpty = false)
    (henc : tok.encode (pyStrip line) = .ok ids)
    (hround : ∀ (l r : List Nat),
      tok.encode (tok.decode l true) = .ok r → r.length ≤ l.length) :
    (∀ p : GenParams, Event.generateCall p ∈ (process tok gen line).1 →
      p = genParamsFor tok (pyStrip line) ids) ∧
    (tok.model_max_length < ids.length →
      (genParamsFor tok (pyStrip line) ids).text =
          tok.decode (ids.take tok.model_max_length) true ∧
      ∀ r, tok.encode (genParamsFor tok (pyStrip line) ids).text = .ok r →
        r.length ≤ tok.model_max_length) ∧
    (ids.length ≤ tok.model_max_length →
      (genParamsFor tok (pyStrip line) ids).text = pyStrip line) := by
  refine ⟨?_, ?_, ?_⟩
  · intro p hp
    obtain ⟨-, ids2, henc2, rfl⟩ := genCall_mem hp
    rw [henc] at henc2
    cases henc2
    rfl
  · intro hlt
    have htext : (genParamsFor tok (pyStrip line) ids).text =
        tok.decode (ids.take tok.model_max_length) true := by
      simp [genParamsFor, effText, hlt]
    refine ⟨htext, ?_⟩
    intro r hr
    rw [htext] at hr
    have hb := hround _ r hr
    calc r.length ≤ (ids.take tok.model_max_length).length := hb
      _ ≤ tok.model_max_length := by
        rw [List.length_take]
        exact Nat.min_le_left _ _
  · intro hle
    simp [genParamsFor, effText, Nat.not_lt.mpr hle]

/-- C3: a line that is empty after stripping produces an empty output
line, with no tokenizer call (neither encode nor decode) and no generator
call. -/
theorem c3_blank_identity (tok : Tokenizer) (gen : Generator) (line : String)
    (h : (pyStrip line).isEmpty = true) :
    process tok gen line = ([Event.write "" false], .ok "") ∧
    (∀ s, Event.encodeCall s ∉ (process tok gen line).1) ∧
    (∀ l b, Event.decodeCall l b ∉ (process tok gen line).1) ∧
    (∀ p, Event.generateCall p ∉ (process tok gen line).1) := by
  have hp := process_blank tok gen line h
  refine ⟨hp, ?_, ?_, ?_⟩
  · intro s hs; rw [hp] at hs; simp at hs
  · intro l b hs; rw [hp] at hs; simp at hs
  · intro p hs; rw [hp] at hs; simp at hs

/-- C4: a run that completes normally on a finite stream of N input lines
produces exactly N output lines (and exactly N writes), and the i-th
output line is the result of processing the i-th input line, in order. -/
theorem c4_order_preservation (tok : Tokenizer) (gen : Generator)
    (lines outs : List String)
    (h : (runLines tok gen lines).2 = .ok outs) :
    outs.length = lines.length ∧
    (runLines tok gen lines).1.countP Event.isWrite = lines.length ∧
    ∀ (i : Nat) (hi : i < lines.length) (hi2 : i < outs.length),
      (process tok gen (lines.get ⟨i, hi⟩)).2 = .ok (outs.get ⟨i, hi2⟩) := by
  obtain ⟨h1, h2⟩ := runLines_ok tok gen lines outs h
  exact ⟨h1, runLines_writes tok gen lines outs h, h2⟩

/-- C5: for a non-empty line whose token sequence exceeds
model_max_length, the length budget of the generation call is computed
from the truncated, decoded EffectiveText. -/
theorem c5_budget_from_truncated (tok : Tokenizer) (gen : Generator)
    (line : String) (ids : List Nat)
    (htrim : (pyStrip line).isEmpty = false)
    (henc : tok.encode (pyStrip line) = .ok ids)
    (hover : tok.model_max_length < ids.length) :
    ∀ p : GenParams, Event.generateCall p ∈ (process tok gen line).1 →
      p.text = tok.decode (ids.take tok.model_max_length) true ∧
      p.max_length =
        Nat.max
          ((pySplit (tok.decode (ids.take tok.model_max_length) true)).length
            * 2) 5 := by
  intro p hp
  obtain ⟨-, ids2, henc2, rfl⟩ := genCall_mem hp
  rw [henc] at henc2
  cases henc2
  constructor <;> simp [genParamsFor, effText, budgetMax, hover]

/-- C6 (amended): a write event carries flush=True exactly when its line
is non-blank after stripping: the generated text of a non-blank line is
flushed immediately, but the empty line printed for a blank input is
written without requesting a flush. -/
theorem c6_flush_amended (tok : Tokenizer) (gen : Generator) (line : String)
    (s : String) (f : Bool)
    (h : Event.write s f ∈ (process tok gen line).1) :
    f = !(pyStrip line).isEmpty :=
  write_flag h

/-- C6 counterexample: on the concrete blank input line of one space, the
program performs a write whose flush flag is false (the blank-line branch
prints without flush=True), so it is false that the output stream is
flushed after every written line, blank lines included. -/
theorem c6_flush_counterexample :
    process charTok bangGen " " = ([Event.write "" false], .ok "") ∧
    Event.write "" false ∈ (process charTok bangGen " ").1 :=
  ⟨by decide, by decide⟩

/-- C7: for every non-empty stripped line processed successfully, the
generator is invoked exactly once, with do_sample=False (deterministic
decoding) and truncation=True (the generator's own truncation guard), and
the output line is the first generated candidate. -/
theorem c7_single_deterministic_call (tok : Tokenizer) (gen : Generator)
    (line : String) (out : String)
    (htrim : (pyStrip line).isEmpty = false)
    (hok : (process tok gen line).2 = .ok out) :
    (process tok gen line).1.countP Event.isGen = 1 ∧
    ∀ p : GenParams, Event.generateCall p ∈ (process tok gen line).1 →
      p.do_sample = false ∧ p.truncation = true ∧
      ∃ rest, gen.run p = .ok (out :: rest) := by
  obtain ⟨ids, rest, henc, hrun, heq⟩ := process_success htrim hok
  constructor
  · rw [heq]
    simp [List.countP_cons, List.countP_append, Event.isGen,
      countP_gen_truncEvents]
  · intro p hp
    obtain ⟨-, ids2, henc2, rfl⟩ := genCall_mem hp
    rw [henc] at henc2
    cases henc2
    exact ⟨rfl, rfl, rest, hrun⟩

/-- C8: a tokenization or generation failure on any line propagates and
aborts the whole run, with no retry and no per-line isolation (the lines
after the failing one are never processed); and a generator returning
zero candidates makes the line fail with an index error rather than being
handled. -/
theorem c8_failure_propagation (tok : Tokenizer) (gen : Generator) :
    (∀ (pre : List String) (line : String) (post : List String)
        (evs : List Event) (e : String),
      (∀ l ∈ pre, ∃ ev o, process tok gen l = (ev, Except.ok o)) →
      process tok gen line = (evs, .error e) →
      runLines tok gen (pre ++ line :: post) =
        ((pre.map fun l => (process tok gen l).1).flatten ++ evs,
          .error e)) ∧
    (∀ (line : String) (ids : List Nat),
      (∀ p, gen.run p = .ok []) →
      (pyStrip line).isEmpty = false →
      tok.encode (pyStrip line) = .ok ids →
      (process tok gen line).2 = .error "IndexError") := by
  constructor
  · exact runLines_abort tok gen
  · intro line ids hgen htrim henc
    unfold process
    simp [htrim, henc, hgen]

/-- C9: for every line whose token sequence strictly exceeds
model_max_length, the token list handed to decoding has length exactly
model_max_length, and the trace contains exactly one decode call (and
none when the sequence fits). -/
theorem c9_exact_truncation (tok : Tokenizer) (gen : Generator)
    (line : String) (ids : List Nat)
    (htrim : (pyStrip line).isEmpty = false)
    (henc : tok.encode (pyStrip line) = .ok ids) :
    ((process tok gen line).1.countP Event.isDecode =
      if ids.length > tok.model_max_length then 1 else 0) ∧
    ∀ l b, Event.decodeCall l b ∈ (process tok gen line).1 →
      l = ids.take tok.model_max_length ∧
      l.length = tok.model_max_length := by
  refine ⟨countP_decode_process tok gen line ids htrim henc, ?_⟩
  intro l b hl
  obtain ⟨ids2, henc2, hlt, h1, h2, h3⟩ := decodeCall_mem hl
  rw [henc] at henc2
  cases henc2
  exact ⟨h1, h3⟩

/-- C10: two raw input lines that are equal after stripping are processed
identically: same trace of tokenizer and generator calls and the same
output line. -/
theorem c10_strip_determines (tok : Tokenizer) (gen : Generator)
    (line1 line2 : String)
    (h : pyStrip line1 = pyStrip line2) :
    process tok gen line1 = process tok gen line2 := by
  unfold process
  rw [h]

/-! Witnesses: each conditional claim theorem evaluated at a concrete
input, with its hypotheses discharged there. -/

/-- Round-trip property of the concrete character tokenizer: re-encoding
a decoded id list never lengthens it. -/
theorem charTok_roundtrip : ∀ (l r : List Nat),
    charTok.encode (charTok.decode l true) = .ok r → r.length ≤ l.length := by
  intro l r h
  simp only [charTok] at h
  cases h
  simp

/-- C1 witness: the two-character line "hi" (one word, two ids, under
capacity) gets min_length 1 and max_length 5. -/
theorem c1_length_budget_witness :
    ((pyStrip "hi").isEmpty = false) ∧
    (charTok.encode (pyStrip "hi") = .ok [104, 105]) ∧
    ((genParamsFor charTok (pyStrip "hi") [104, 105]).max_length = 5) ∧
    ((genParamsFor charTok (pyStrip "hi") [104, 105]).min_length = 1) ∧
    Event.generateCall (genParamsFor charTok (pyStrip "hi") [104, 105]) ∈
      (process charTok bangGen "hi").1 :=
  ⟨by decide, by decide, by decide, by decide,
    (c1_length_budget charTok bangGen "hi" [104, 105]
      (by decide) (by decide)).1⟩

/-- C2 witness: the line "abcd" encodes to four ids, over the capacity of
three, and the EffectiveText is the decoding of the first three ids,
namely "abc". -/
theorem c2_truncation_boundedness_witness :
    ((pyStrip "abcd").isEmpty = false) ∧
    (charTok.encode (pyStrip "abcd") = .ok [97, 98, 99, 100]) ∧
    (charTok.model_max_length <
      ([97, 98, 99, 100] : List Nat).length) ∧
    ((genParamsFor charTok (pyStrip "abcd") [97, 98, 99, 100]).text =
      charTok.decode
        (([97, 98, 99, 100] : List Nat).take charTok.model_max_length)
        true) ∧
    ((genParamsFor charTok (pyStrip "abcd") [97, 98, 99, 100]).text =
      "abc") :=
  ⟨by decide, by decide, by decide,
    ((c2_truncation_boundedness charTok bangGen "abcd" [97, 98, 99, 100]
        (by decide) (by decide) charTok_roundtrip).2.1 (by decide)).1,
    by decide⟩

/-- C3 witness: a line of spaces and a tab strips to empty and is echoed
as an empty line with no collaborator call. -/
theorem c3_blank_identity_witness :
    ((pyStrip "  \t ").isEmpty = true) ∧
    process charTok bangGen "  \t " = ([Event.write "" false], .ok "") :=
  ⟨by decide, (c3_blank_identity charTok bangGen "  \t " (by decide)).1⟩

/-- C4 witness: a three-line stream with a blank middle line produces
exactly three output lines, in order, with three writes. -/
theorem c4_order_preservation_witness :
    ((runLines charTok bangGen ["hi", "", "ab cd ef gh"]).2 =
      .ok ["hi!", "", "ab !"]) ∧
    (["hi!", "", "ab !"] : List String).length =
      (["hi", "", "ab cd ef gh"] : List String).length ∧
    (runLines charTok bangGen ["hi", "", "ab cd ef gh"]).1.countP
        Event.isWrite =
      (["hi", "", "ab cd ef gh"] : List String).length :=
  ⟨by decide,
    (c4_order_preservation charTok bangGen ["hi", "", "ab cd ef gh"]
      ["hi!", "", "ab !"] (by decide)).1,
    (c4_order_preservation charTok bangGen ["hi", "", "ab cd ef gh"]
      ["hi!", "", "ab !"] (by decide)).2.1⟩

/-- C5 witness: the line "ab cd ef gh" (four words, eleven ids) is
truncated to the three-id EffectiveText "ab " (one word), so the budget
is max(1*2, 5) = 5 and not max(4*2, 5) = 8 from the original line. -/
theorem c5_budget_from_truncated_witness :
    ((genParamsFor charTok (pyStrip "ab cd ef gh")
        [97, 98, 32, 99, 100, 32, 101, 102, 32, 103, 104]).text =
      charTok.decode
        (([97, 98, 32, 99, 100, 32, 101, 102, 32, 103, 104] : List Nat).take
          charTok.model_max_length) true ∧
      (genParamsFor charTok (pyStrip "ab cd ef gh")
          [97, 98, 32, 99, 100, 32, 101, 102, 32, 103, 104]).max_length =
        Nat.max
          ((pySplit (charTok.decode
            (([97, 98, 32, 99, 100, 32, 101, 102, 32, 103, 104] :
              List Nat).take charTok.model_max_length) true)).length * 2)
          5) ∧
    ((genParamsFor charTok (pyStrip "ab cd ef gh")
        [97, 98, 32, 99, 100, 32, 101, 102, 32, 103, 104]).max_length = 5) ∧
    (Nat.max ((pySplit (pyStrip "ab cd ef gh")).length * 2) 5 = 8) :=
  ⟨c5_budget_from_truncated charTok bangGen "ab cd ef gh"
      [97, 98, 32, 99, 100, 32, 101, 102, 32, 103, 104]
      (by decide) (by decide) (by decide)
      (genParamsFor charTok (pyStrip "ab cd ef gh")
        [97, 98, 32, 99, 100, 32, 101, 102, 32, 103, 104])
      (by decide),
    by decide, by decide⟩

/-- C6 witness: the non-blank line "hi" produces the write of "hi!" with
flush flag true, which equals the negated blankness of the line. -/
theorem c6_flush_amended_witness :
    (Event.write "hi!" true ∈ (process charTok bangGen "hi").1) ∧
    (true = !(pyStrip "hi").isEmpty) :=
  ⟨by decide, c6_flush_amended charTok bangGen "hi" "hi!" true (by decide)⟩

/-- C7 witness: processing "hi" makes exactly one generation call, with
do_sample false and truncation true, and the output "hi!" is the first
candidate. -/
theorem c7_single_deterministic_call_witness :
    ((pyStrip "hi").isEmpty = false) ∧
    ((process charTok bangGen "hi").2 = .ok "hi!") ∧
    ((process charTok bangGen "hi").1.countP Event.isGen = 1) ∧
    ((genParamsFor charTok (pyStrip "hi") [104, 105]).do_sample = false ∧
      (genParamsFor charTok (pyStrip "hi") [104, 105]).truncation = true ∧
      ∃ rest, bangGen.run (genParamsFor charTok (pyStrip "hi") [104, 105]) =
        .ok ("hi!" :: rest)) :=
  ⟨by decide, by decide,
    (c7_single_deterministic_call charTok bangGen "hi" "hi!"
      (by decide) (by decide)).1,
    (c7_single_deterministic_call charTok bangGen "hi" "hi!"
      (by decide) (by decide)).2
      (genParamsFor charTok (pyStrip "hi") [104, 105]) (by decide)⟩

/-- C8 witness: with the zero-candidate generator, the blank first line
succeeds, the second line "hi" fails with IndexError, the run aborts with
that error, and the third line is never processed. -/
theorem c8_failure_propagation_witness :
    (runLines charTok emptyGen ([" "] ++ "hi" :: ["bye"]) =
      (([" "].map fun l => (process charTok emptyGen l).1).flatten ++
        [Event.encodeCall "hi",
          Event.generateCall (genParamsFor charTok (pyStrip "hi")
            [104, 105])],
        .error "IndexError")) ∧
    ((process charTok emptyGen "hi").2 = .error "IndexError") :=
  ⟨(c8_failure_propagation charTok emptyGen).1 [" "] "hi" ["bye"]
      [Event.encodeCall "hi",
        Event.generateCall (genParamsFor charTok (pyStrip "hi") [104, 105])]
      "IndexError"
      (by
        intro l hl
        rw [List.mem_singleton] at hl
        subst hl
        exact ⟨[Event.write "" false], "", by decide⟩)
      (by decide),
    (c8_failure_propagation charTok emptyGen).2 "hi" [104, 105]
      (fun _ => rfl) (by decide) (by decide)⟩

/-- C9 witness: for "ab cd ef gh" (eleven ids, capacity three) the trace
has exactly one decode call, and the decoded id list is the first three
ids, of length exactly three. -/
theorem c9_exact_truncation_witness :
    ((process charTok bangGen "ab cd ef gh").1.countP Event.isDecode =
      if ([97, 98, 32, 99, 100, 32, 101, 102, 32, 103, 104] :
          List Nat).length > charTok.model_max_length then 1 else 0) ∧
    (([97, 98, 32] : List Nat) =
      ([97, 98, 32, 99, 100, 32, 101, 102, 32, 103, 104] : List Nat).take
        charTok.model_max_length ∧
      ([97, 98, 32] : List Nat).length = charTok.model_max_length) :=
  ⟨(c9_exact_truncation charTok bangGen "ab cd ef gh"
      [97, 98, 32, 99, 100, 32, 101, 102, 32, 103, 104]
      (by decide) (by decide)).1,
    (c9_exact_truncation charTok bangGen "ab cd ef gh"
      [97, 98, 32, 99, 100, 32, 101, 102, 32, 103, 104]
      (by decide) (by decide)).2 [97, 98, 32] true (by decide)⟩

/-- C10 witness: the lines "  hi" and a tab-padded "hi" strip to the same
text and are processed identically. -/
theorem c10_strip_determines_witness :
    (pyStrip "  hi" = pyStrip "hi \t") ∧
    process charTok bangGen "  hi" = process charTok bangGen "hi \t" :=
  ⟨by decide, c10_strip_determines charTok bangGen "  hi" "hi \t" (by decide)⟩


end Punctuator
